import Mathlib

/-!
Verification development for `scripts/fetch_rss.py`: a news-brief pipeline
that fetches RSS feeds, enriches entries via an external AI call, ranks the
results and aggregates them into a JSON document.

The Python functions are shallowly embedded as pure Lean functions.  The
outcomes of external collaborators (the network fetch, the AI completion
call, the feed parser) are passed in as explicit parameters: `none` / `fail`
stands for the Python path in which the corresponding call raised an
exception or returned a falsy value.
-/

namespace FetchRss

/-- A parsed RSS feed entry (the fields of `entry` that the script uses). -/
structure Entry where
  title : String
  link : String
deriving DecidableEq

/-- One element of the module-level `FEEDS` list. -/
structure Feed where
  source : String
  category : String
  url : String
deriving DecidableEq

/-- The enriched-article dict built at the end of `process_entry`. -/
structure Article where
  title : String
  summary_2lines : String
  why_it_matters : String
  market_impact : String
  category : String
  source : String
  url : String
deriving DecidableEq

/-- A JSON object with string values, modelled as an association list
(first binding wins, as `json.loads` yields at most one binding per key). -/
abbrev JsonObj := List (String × String)

/-- `d.get(k, dflt)` on a Python dict. -/
def dictGet (d : JsonObj) (k dflt : String) : String :=
  match d.find? (fun p => p.1 == k) with
  | some p => p.2
  | none => dflt

/-- A parsed JSON value as `json.loads` can return it: an object, or some
other value of which only Python truthiness matters downstream. -/
inductive PyJson where
  | obj (fields : JsonObj)
  | other (truthy : Bool)
deriving DecidableEq

/-- Python truthiness of a parsed JSON value (`{}` is falsy). -/
def pyTruthy : PyJson → Bool
  | .obj fields => !fields.isEmpty
  | .other b => b

/-- `analyze_article_with_ai(content, title)`.  `call` is the outcome of the
single `client.chat.completions.create` + `json.loads` round trip: `none`
when the call raised or the response was not valid JSON, `some j` when it
parsed to `j`.  The function returns `None` on empty content and otherwise
forwards the parsed value (its own `try` turns any failure into `None`). -/
def analyze_article_with_ai (content : String) (call : Option PyJson) :
    Option PyJson :=
  if content = "" then none else call

/-- `process_entry(entry, feed_source)`.  `fetched` is the result of
`fetch_article_content(entry.link)` (`none` = extraction failed / returned
`None`); `call` is as in `analyze_article_with_ai`.  Mirrors the source:
falsy content aborts, falsy analysis aborts, a truthy non-dict analysis
raises `AttributeError` on `.get` which the outer `try` turns into `None`,
and a truthy dict is assembled with `.get` fallbacks. -/
def process_entry (entry : Entry) (feed : Feed)
    (fetched : Option String) (call : Option PyJson) : Option Article :=
  match fetched with
  | none => none
  | some content =>
    if content = "" then none
    else
      match analyze_article_with_ai content call with
      | none => none
      | some j =>
        if pyTruthy j then
          match j with
          | .obj d =>
            some { title := entry.title
                 , summary_2lines := dictGet d "summary_2lines" ""
                 , why_it_matters := dictGet d "why_it_matters" ""
                 , market_impact := dictGet d "market_impact" ""
                 , category := dictGet d "category" feed.category
                 , source := feed.source
                 , url := entry.link }
          | .other _ => none
        else none

/-- Python list indexing `xs[i]` with wraparound for negative indices;
`none` models `IndexError`. -/
def pyIndex (xs : List α) (i : Int) : Option α :=
  if 0 ≤ i then xs.get? i.toNat
  else if 0 ≤ (xs.length : Int) + i then xs.get? ((xs.length : Int) + i).toNat
  else none

/-- A Python list comprehension `[f x for x in l]` whose body may raise:
the first `none` aborts the whole comprehension. -/
def mapOrFail (f : α → Option β) : List α → Option (List β)
  | [] => some []
  | x :: xs =>
    match f x, mapOrFail f xs with
    | some y, some ys => some (y :: ys)
    | _, _ => none

/-- Outcome of the ranking round trip in `select_top5_articles`: `fail` when
the API call raised or its response was not valid JSON (or `.get` raised),
`ok indices` when it yielded a JSON object whose `top5_indices` entry is the
integer list `indices` (`ok []` also covers a missing `top5_indices` key,
which `result.get` defaults to `[]`). -/
inductive RankResponse where
  | fail
  | ok (indices : List Int)
deriving DecidableEq

/-- Number of indices carried by a ranking response. -/
def responseIndexCount : RankResponse → Nat
  | .fail => 0
  | .ok l => l.length

/-- `select_top5_articles(articles)`.  Empty input returns `[]` with no call
made; otherwise the comprehension
`[articles[i] for i in top5_indices if i < len(articles)]` is evaluated, and
any exception anywhere in the `try` block (including an `IndexError` from a
very negative index) falls back to `articles[:5]`. -/
def select_top5_articles (articles : List Article) (resp : RankResponse) :
    List Article :=
  if articles = [] then []
  else
    match resp with
    | .fail => articles.take 5
    | .ok indices =>
      match mapOrFail (pyIndex articles)
          (indices.filter (fun i => i < (articles.length : Int))) with
      | some selected => selected
      | none => articles.take 5

/-- The category keys of the `categories` dict literal in `main`. -/
def CATEGORY_KEYS : List String :=
  ["Tech", "Markets", "Geopolitics", "Economy", "Corporate"]

/-- The dict comprehension `{cat: [] for cat in [...]}`. -/
def emptyCategories : List (String × List Article) :=
  CATEGORY_KEYS.map (fun c => (c, []))

/-- One iteration of the bucketing loop in `main`:
`if article["category"] in categories: categories[article["category"]].append(article)`. -/
def addToCategories (cats : List (String × List Article)) (a : Article) :
    List (String × List Article) :=
  if cats.any (fun p => p.1 == a.category) then
    cats.map (fun p => if p.1 == a.category then (p.1, p.2 ++ [a]) else p)
  else cats

/-- The whole bucketing loop of `main` (the BriefAggregator). -/
def buildCategories (articles : List Article) : List (String × List Article) :=
  articles.foldl addToCategories emptyCategories

/-- A feed entry together with the outcomes of its two external calls, so a
whole run can be described by pure data. -/
structure EntryOutcome where
  entry : Entry
  fetched : Option String
  call : Option PyJson
deriving DecidableEq

/-- Outcome of `feedparser.parse` for one feed: `fail` when it raised (the
`except` branch in `main`), `ok es` when it yielded the entry list `es`. -/
inductive ParseResult where
  | fail
  | ok (entries : List EntryOutcome)
deriving DecidableEq

/-- The entries `main` submits to the pool for one feed: `d.entries[:5]` on
a successful parse, nothing when the parse raised. -/
def scheduleFeed (feed : Feed) (pr : ParseResult) :
    List (EntryOutcome × Feed) :=
  match pr with
  | .fail => []
  | .ok es => (es.take 5).map (fun e => (e, feed))

/-- Collection of task results behind the completion barrier: tasks that
returned `None` (or raised) contribute nothing to `all_articles`. -/
def collectArticles (tasks : List (EntryOutcome × Feed)) : List Article :=
  tasks.filterMap (fun t => process_entry t.1.entry t.2 t.1.fetched t.1.call)

/-- `all_articles` as accumulated in `main` (task results in submission
order; completion order is non-deterministic but the claims under proof are
stated for an arbitrary article list, so the choice of order is harmless). -/
def all_articles (feeds : List (Feed × ParseResult)) : List Article :=
  collectArticles ((feeds.map (fun fp => scheduleFeed fp.1 fp.2)).flatten)

/-- The `output_data` dict written to `news.json`. -/
structure OutputData where
  generated_at_jst : String
  todays_brief : List Article
  categories : List (String × List Article)
deriving DecidableEq

/-- `main()`: build `categories` and `todays_brief` from the collected
articles and assemble the output document.  `now` is the formatted JST
timestamp. -/
def main (feeds : List (Feed × ParseResult)) (resp : RankResponse)
    (now : String) : OutputData :=
  let arts := all_articles feeds
  { generated_at_jst := now
  , todays_brief := select_top5_articles arts resp
  , categories := buildCategories arts }

/-- The `__main__` guard: with no `OPENAI_API_KEY` in the environment the
script stops before doing any work and writes nothing (`none`); with the key
present it runs `main` and writes exactly the one document it returns. -/
def runScript (hasKey : Bool) (feeds : List (Feed × ParseResult))
    (resp : RankResponse) (now : String) : Option OutputData :=
  if hasKey then some (main feeds resp now) else none

/-! ### Helper lemmas -/

lemma mapOrFail_length {α β : Type} {f : α → Option β} :
    ∀ {l : List α} {ys : List β}, mapOrFail f l = some ys →
      ys.length = l.length := by
  intro l
  induction l with
  | nil =>
    intro ys h
    simp only [mapOrFail, Option.some.injEq] at h
    simp [← h]
  | cons x xs ih =>
    intro ys h
    simp only [mapOrFail] at h
    cases hx : f x with
    | none => rw [hx] at h; simp at h
    | some y =>
      cases hxs : mapOrFail f xs with
      | none => rw [hx, hxs] at h; simp at h
      | some ys0 =>
        rw [hx, hxs] at h
        simp only [Option.some.injEq] at h
        subst h
        simp [ih hxs]

lemma mapOrFail_mem {α β : Type} {f : α → Option β} :
    ∀ {l : List α} {ys : List β}, mapOrFail f l = some ys →
      ∀ y ∈ ys, ∃ x ∈ l, f x = some y := by
  intro l
  induction l with
  | nil =>
    intro ys h
    simp only [mapOrFail, Option.some.injEq] at h
    simp [← h]
  | cons x xs ih =>
    intro ys h y hy
    simp only [mapOrFail] at h
    cases hx : f x with
    | none => rw [hx] at h; simp at h
    | some y0 =>
      cases hxs : mapOrFail f xs with
      | none => rw [hx, hxs] at h; simp at h
      | some ys0 =>
        rw [hx, hxs] at h
        simp only [Option.some.injEq] at h
        subst h
        rcases List.mem_cons.1 hy with hy0 | hy0
        · exact ⟨x, List.mem_cons_self x xs, hy0 ▸ hx⟩
        · obtain ⟨x0, hx0, hfx0⟩ := ih hxs y hy0
          exact ⟨x0, List.mem_cons_of_mem x hx0, hfx0⟩

lemma mapOrFail_eq_filterMap {α β : Type} {f : α → Option β} :
    ∀ {l : List α}, (∀ x ∈ l, (f x).isSome) →
      mapOrFail f l = some (l.filterMap f) := by
  intro l
  induction l with
  | nil => intro _; rfl
  | cons x xs ih =>
    intro h
    have hx : (f x).isSome := h x (List.mem_cons_self x xs)
    obtain ⟨y, hy⟩ := Option.isSome_iff_exists.1 hx
    have hxs := ih (fun a ha => h a (List.mem_cons_of_mem x ha))
    simp only [mapOrFail, hy, hxs, List.filterMap_cons, hy]

lemma pyIndex_mem {α : Type} {xs : List α} {i : Int} {a : α}
    (h : pyIndex xs i = some a) : a ∈ xs := by
  unfold pyIndex at h
  split at h
  · exact List.get?_mem h
  · split at h
    · exact List.get?_mem h
    · simp at h

lemma pyIndex_in_range {α : Type} {xs : List α} {i : Int}
    (h1 : -(xs.length : Int) ≤ i) (h2 : i < (xs.length : Int)) :
    pyIndex xs i = xs.get? (i % (xs.length : Int)).toNat ∧
      (pyIndex xs i).isSome := by
  have hlen : 0 < (xs.length : Int) := by omega
  have hlen0 : xs.length ≠ 0 := by omega
  by_cases hi : 0 ≤ i
  · have hmod : i % (xs.length : Int) = i := Int.emod_eq_of_lt hi h2
    have hget : (i.toNat) < xs.length := (Int.toNat_lt' hlen0).2 h2
    constructor
    · simp [pyIndex, hi, hmod]
    · simp only [pyIndex, if_pos hi]
      rw [List.get?_eq_get hget]
      rfl
  · have hadd : (0 : Int) ≤ (xs.length : Int) + i := by omega
    have hmod : i % (xs.length : Int) = (xs.length : Int) + i := by
      have h3 : (i + (xs.length : Int)) % (xs.length : Int)
          = i % (xs.length : Int) := by
        simp [Int.add_emod]
      have h4 : (i + (xs.length : Int)) % (xs.length : Int)
          = i + (xs.length : Int) :=
        Int.emod_eq_of_lt (by omega) (by omega)
      omega
    have hget : ((xs.length : Int) + i).toNat < xs.length :=
      (Int.toNat_lt' hlen0).2 (by omega)
    constructor
    · simp [pyIndex, hi, hadd, hmod]
    · simp only [pyIndex, if_neg hi, if_pos hadd]
      rw [List.get?_eq_get hget]
      rfl

lemma select_top5_subset (articles : List Article) (resp : RankResponse) :
    ∀ a ∈ select_top5_articles articles resp, a ∈ articles := by
  intro a ha
  by_cases he : articles = []
  · simp [select_top5_articles, he] at ha
  · cases resp with
    | fail =>
      simp only [select_top5_articles, if_neg he] at ha
      exact List.take_subset 5 articles ha
    | ok indices =>
      simp only [select_top5_articles, if_neg he] at ha
      split at ha
      · next sel hm =>
          obtain ⟨i, _, hfi⟩ := mapOrFail_mem hm a ha
          exact pyIndex_mem hfi
      · exact List.take_subset 5 articles ha

lemma select_top5_length (articles : List Article) (resp : RankResponse)
    (h : responseIndexCount resp ≤ 5) :
    (select_top5_articles articles resp).length ≤ 5 := by
  by_cases he : articles = []
  · simp [select_top5_articles, he]
  · cases resp with
    | fail =>
      simp only [select_top5_articles, if_neg he]
      rw [List.length_take]
      omega
    | ok indices =>
      simp only [select_top5_articles, if_neg he]
      split
      · next sel hm =>
          have h1 := mapOrFail_length hm
          have h2 := List.length_filter_le
            (fun i => i < (articles.length : Int)) indices
          simp only [responseIndexCount] at h
          omega
      · rw [List.length_take]
        omega

lemma addToCategories_map (keys : List String) (f : String → List Article)
    (a : Article) :
    addToCategories (keys.map fun c => (c, f c)) a
      = keys.map fun c =>
          (c, f c ++ if a.category == c then [a] else []) := by
  unfold addToCategories
  by_cases h : (keys.map fun c => (c, f c)).any (fun p => p.1 == a.category)
  · rw [if_pos h, List.map_map]
    apply List.map_congr_left
    intro c _
    by_cases hc : c = a.category
    · simp [Function.comp, hc]
    · have hc2 : a.category ≠ c := fun h2 => hc h2.symm
      simp [Function.comp, hc, hc2]
  · rw [if_neg h]
    apply List.map_congr_left
    intro c hc
    have hc2 : a.category ≠ c := by
      intro h2
      apply h
      simp only [List.any_eq_true, List.mem_map]
      exact ⟨(c, f c), ⟨c, hc, rfl⟩, by simp [h2]⟩
    simp [hc2]

lemma foldl_addToCategories (l : List Article) :
    ∀ f : String → List Article,
      l.foldl addToCategories (CATEGORY_KEYS.map fun c => (c, f c))
        = CATEGORY_KEYS.map fun c =>
            (c, f c ++ l.filter (fun a => a.category == c)) := by
  induction l with
  | nil => intro f; simp
  | cons a l ih =>
    intro f
    rw [List.foldl_cons, addToCategories_map CATEGORY_KEYS f a,
      ih (fun c => f c ++ if a.category == c then [a] else [])]
    apply List.map_congr_left
    intro c _
    simp only [List.filter_cons]
    by_cases hc : a.category = c
    · simp [hc]
    · simp [hc]

lemma buildCategories_eq (l : List Article) :
    buildCategories l
      = CATEGORY_KEYS.map fun c =>
          (c, l.filter (fun a => a.category == c)) := by
  have h := foldl_addToCategories l (fun _ => ([] : List Article))
  simpa [buildCategories, emptyCategories] using h

lemma all_articles_skip_failed (l1 l2 : List (Feed × ParseResult)) (f : Feed) :
    all_articles (l1 ++ (f, ParseResult.fail) :: l2) = all_articles (l1 ++ l2) := by
  simp [all_articles, scheduleFeed, collectArticles]

/-! ### Concrete fixtures for witnesses and counterexamples -/

def cexArticleA : Article :=
  ⟨"Fed raises rates", "sa", "wa", "ma", "Markets", "Reuters", "https://x/a"⟩

def cexArticleB : Article :=
  ⟨"Chip breakthrough", "sb", "wb", "mb", "Tech", "BBC Business", "https://x/b"⟩

def cexArticles : List Article := [cexArticleA, cexArticleB]

def cexIndices : List Int := [-1, 0, 5]

def cexEntry : Entry := ⟨"Fed raises rates", "https://x/a"⟩

def cexFeed : Feed := ⟨"BBC Business", "Business", "https://feeds/bbc"⟩

def cexOutcome : EntryOutcome :=
  ⟨cexEntry, some "article body",
   some (.obj [("summary_2lines", "s"), ("category", "Tech")])⟩

def cexFeeds : List (Feed × ParseResult) := [(cexFeed, .ok [cexOutcome])]

/-! ### Claim theorems -/

/-- C1 (counterexample): the ranking validation `i < len(articles)` does not
drop negative indices.  With two articles and the single returned index `-1`,
the claimed behavior would yield `[]`, but the code returns the last article
via Python wraparound indexing. -/
theorem negative_index_selects_from_end :
    select_top5_articles cexArticles (RankResponse.ok [-1]) = [cexArticleB] ∧
    select_top5_articles cexArticles (RankResponse.ok [-1]) ≠ [] := by
  decide

/-- C1 (amended): a returned index `i ≥ len(articles)` is silently dropped,
but a negative index is not: provided every returned index is at least
`-len(articles)`, each index that passes the `i < len` check (negative ones
included) selects `articles[i % len]` by Python wraparound indexing, and no
such index is dropped (the output has exactly one article per kept index). -/
theorem selector_index_validation (articles : List Article) (indices : List Int)
    (h1 : ∀ i ∈ indices, -(articles.length : Int) ≤ i) :
    select_top5_articles articles (RankResponse.ok indices)
        = (indices.filter (fun i => i < (articles.length : Int))).filterMap
            (fun i => articles.get? (i % (articles.length : Int)).toNat) ∧
    (select_top5_articles articles (RankResponse.ok indices)).length
        = (indices.filter (fun i => i < (articles.length : Int))).length := by
  by_cases he : articles = []
  · subst he
    have hf : indices.filter
        (fun i => i < ((([] : List Article)).length : Int)) = [] := by
      rw [List.filter_eq_nil_iff]
      intro i hi
      have h2 := h1 i hi
      simp only [List.length_nil, Int.natCast_zero, neg_zero] at h2
      simp only [List.length_nil, Int.natCast_zero, decide_eq_true_eq]
      omega
    rw [hf]
    exact ⟨rfl, rfl⟩
  · have hall : ∀ i ∈ indices.filter (fun i => i < (articles.length : Int)),
        (pyIndex articles i).isSome := by
      intro i hi
      rw [List.mem_filter] at hi
      have h2 : i < (articles.length : Int) := by simpa using hi.2
      exact (pyIndex_in_range (h1 i hi.1) h2).2
    have hmap := mapOrFail_eq_filterMap hall
    have hsel : select_top5_articles articles (RankResponse.ok indices)
        = (indices.filter (fun i => i < (articles.length : Int))).filterMap
            (pyIndex articles) := by
      simp only [select_top5_articles, if_neg he, hmap]
    constructor
    · rw [hsel]
      apply List.filterMap_congr
      intro i hi
      rw [List.mem_filter] at hi
      have h2 : i < (articles.length : Int) := by simpa using hi.2
      exact (pyIndex_in_range (h1 i hi.1) h2).1
    · rw [hsel]
      exact mapOrFail_length hmap

/-- C1 (witness): concrete instance of `selector_index_validation` on a
two-article list with indices `[-1, 0, 5]`. -/
theorem selector_index_validation_witness :
    (∀ i ∈ cexIndices, -(cexArticles.length : Int) ≤ i) ∧
    (select_top5_articles cexArticles (RankResponse.ok cexIndices)
        = (cexIndices.filter (fun i => i < (cexArticles.length : Int))).filterMap
            (fun i => cexArticles.get? (i % (cexArticles.length : Int)).toNat) ∧
      (select_top5_articles cexArticles (RankResponse.ok cexIndices)).length
        = (cexIndices.filter
            (fun i => i < (cexArticles.length : Int))).length) :=
  ⟨by decide, selector_index_validation cexArticles cexIndices (by decide)⟩

/-- C2 (counterexample): nothing truncates the returned index list, so when
the ranking response carries six in-range indices the brief has six entries
and `len(todays_brief) ≤ 5` fails. -/
theorem todays_brief_can_exceed_five :
    ¬ ((main cexFeeds (RankResponse.ok [0, 0, 0, 0, 0, 0])
        "2026-10-12 09:00").todays_brief.length ≤ 5) := by
  decide

/-- C2 (amended): unconditionally — for every run, whatever the ranking
response — every element of `todays_brief` is drawn from the collected
article set, which is the same pool `categories` is built from; and whenever
the ranking response carries at most five indices (in particular on the
fallback path), `len(todays_brief) ≤ 5`. -/
theorem todays_brief_bounded_when_at_most_five_indices
    (feeds : List (Feed × ParseResult)) (resp : RankResponse) (now : String) :
    (∀ a ∈ (main feeds resp now).todays_brief, a ∈ all_articles feeds) ∧
    (main feeds resp now).categories = buildCategories (all_articles feeds) ∧
    (responseIndexCount resp ≤ 5 →
      (main feeds resp now).todays_brief.length ≤ 5) :=
  ⟨select_top5_subset (all_articles feeds) resp, rfl,
   fun h => select_top5_length (all_articles feeds) resp h⟩

/-- C2 (witness): concrete instances of
`todays_brief_bounded_when_at_most_five_indices` on a one-feed run — once
with a one-index response, discharging the hypothesis of the length bound,
and once with the six-index response of the counterexample run, showing the
membership conjunct holds there too. -/
theorem todays_brief_bounded_witness :
    responseIndexCount (RankResponse.ok [0]) ≤ 5 ∧
    (∀ a ∈ (main cexFeeds (RankResponse.ok [0]) "t").todays_brief,
        a ∈ all_articles cexFeeds) ∧
    (main cexFeeds (RankResponse.ok [0]) "t").todays_brief.length ≤ 5 ∧
    (∀ a ∈ (main cexFeeds (RankResponse.ok [0, 0, 0, 0, 0, 0])
        "t").todays_brief, a ∈ all_articles cexFeeds) :=
  ⟨by decide,
   (todays_brief_bounded_when_at_most_five_indices cexFeeds
      (RankResponse.ok [0]) "t").1,
   (todays_brief_bounded_when_at_most_five_indices cexFeeds
      (RankResponse.ok [0]) "t").2.2 (by decide),
   (todays_brief_bounded_when_at_most_five_indices cexFeeds
      (RankResponse.ok [0, 0, 0, 0, 0, 0]) "t").1⟩

/-- C3: when the ranking call fails or its response is malformed (the `fail`
outcome), `select_top5_articles` returns the first `min(5, len(articles))`
articles in input order (`articles[:5]`); empty input yields empty output. -/
theorem ranking_failure_fallback :
    (∀ articles : List Article,
        select_top5_articles articles RankResponse.fail = articles.take 5) ∧
    (∀ resp, select_top5_articles [] resp = []) := by
  constructor
  · intro articles
    by_cases he : articles = []
    · subst he; rfl
    · simp [select_top5_articles, he]
  · intro resp; rfl

/-- C4 (counterexample): a present-but-invalid analyzer category is kept
verbatim, not replaced by the feed's declared category.  With the analyzer
returning category "Banana" (not one of the five enum values) and the feed
declaring "Business", the enriched article carries "Banana". -/
theorem invalid_category_kept_not_replaced :
    (process_entry cexEntry cexFeed (some "body")
        (some (PyJson.obj [("category", "Banana")]))).map Article.category
      = some "Banana" ∧
    cexFeed.category = "Business" ∧
    ("Banana" : String) ∉ CATEGORY_KEYS := by
  decide

/-- C4 (amended): the enriched article's category is
`ai_analysis.get("category", feed category)`: the feed's declared category
is substituted only when the analyzer's object has no `category` key; a
present category value is kept as-is, whether or not it is a valid enum
value. -/
theorem category_fallback_only_when_missing (e : Entry) (f : Feed)
    (c : String) (d : JsonObj) (hc : c ≠ "") (hd : d ≠ []) :
    (process_entry e f (some c) (some (PyJson.obj d))).map Article.category
      = some (dictGet d "category" f.category) := by
  simp [process_entry, analyze_article_with_ai, hc, pyTruthy,
    List.isEmpty_iff, hd]

/-- C4 (witness): concrete instance of `category_fallback_only_when_missing`
with a one-key analyzer object. -/
theorem category_fallback_only_when_missing_witness :
    (("body" : String) ≠ "" ∧
      ([("category", "Banana")] : JsonObj) ≠ []) ∧
    (process_entry cexEntry cexFeed (some "body")
        (some (PyJson.obj [("category", "Banana")]))).map Article.category
      = some (dictGet [("category", "Banana")] "category" cexFeed.category) :=
  ⟨⟨by decide, by decide⟩,
   category_fallback_only_when_missing cexEntry cexFeed "body"
     [("category", "Banana")] (by decide) (by decide)⟩

/-- C5: a failed content extraction (`None` or empty text) or a malformed
analysis response produces no `EnrichedArticle` and no exception
(`process_entry` is total and returns `none`), and the articles collected
from the other tasks are unchanged: collection distributes over the task
list, so one task's outcome never affects another's. -/
theorem entry_failures_contained :
    (∀ e f call, process_entry e f none call = none) ∧
    (∀ e f call, process_entry e f (some "") call = none) ∧
    (∀ e f content, process_entry e f (some content) none = none) ∧
    (∀ t1 t2 (t : EntryOutcome × Feed),
        collectArticles (t1 ++ t :: t2)
          = collectArticles t1
              ++ (process_entry t.1.entry t.2 t.1.fetched t.1.call).toList
              ++ collectArticles t2) := by
  refine ⟨fun e f call => rfl, fun e f call => rfl, ?_, ?_⟩
  · intro e f content
    simp only [process_entry, analyze_article_with_ai]
    split
    · rfl
    · rfl
  · intro t1 t2 t
    simp only [collectArticles, List.filterMap_append, List.filterMap_cons]
    cases h : process_entry t.1.entry t.2 t.1.fetched t.1.call <;> simp [h]

/-- C6: on a successful parse the scheduler submits exactly `min(5, N)`
entries from that source (`d.entries[:5]`); a failed parse contributes zero
entries, and a run with a failing source produces the same document as the
run without that source (the run is not aborted). -/
theorem scheduler_submits_min_five :
    (∀ f es, (scheduleFeed f (ParseResult.ok es)).length = min 5 es.length) ∧
    (∀ f, scheduleFeed f ParseResult.fail = []) ∧
    (∀ l1 l2 (f : Feed) resp now,
        main (l1 ++ (f, ParseResult.fail) :: l2) resp now
          = main (l1 ++ l2) resp now) := by
  refine ⟨?_, fun f => rfl, ?_⟩
  · intro f es
    simp [scheduleFeed]
  · intro l1 l2 f resp now
    simp [main, all_articles_skip_failed]

/-- C7: the bucketing loop of `main` (the BriefAggregator) is the pure
function mapping the article list to one bucket per enum category, each
holding the input-order subsequence of articles whose category equals that
key; articles with an unrecognized category match no key and land in no
bucket.  Being an equation between pure functions, re-running it on the
same input trivially yields identical contents and order. -/
theorem aggregation_partitions_by_category (l : List Article) :
    buildCategories l
      = CATEGORY_KEYS.map fun c =>
          (c, l.filter (fun a => a.category == c)) :=
  buildCategories_eq l

/-- C8: without the `OPENAI_API_KEY` credential the script stops before
doing any work and produces no output document; with it, the pipeline runs
and produces exactly the one complete document `main` assembles. -/
theorem missing_credential_aborts_without_output
    (feeds : List (Feed × ParseResult)) (resp : RankResponse) (now : String) :
    runScript false feeds resp now = none ∧
    runScript true feeds resp now = some (main feeds resp now) :=
  ⟨rfl, rfl⟩

/-- C9: when extraction and analysis both succeed but the analyzer's object
lacks `summary_2lines`, `why_it_matters` or `market_impact`, the article is
still produced with the empty string substituted for each missing text
field; only `category` gets the non-empty feed fallback. -/
theorem missing_text_fields_default_to_empty (e : Entry) (f : Feed)
    (c : String) (d : JsonObj) (hc : c ≠ "") (hd : d ≠ [])
    (h1 : d.find? (fun p => p.1 == "summary_2lines") = none)
    (h2 : d.find? (fun p => p.1 == "why_it_matters") = none)
    (h3 : d.find? (fun p => p.1 == "market_impact") = none) :
    process_entry e f (some c) (some (PyJson.obj d))
      = some { title := e.title
             , summary_2lines := ""
             , why_it_matters := ""
             , market_impact := ""
             , category := dictGet d "category" f.category
             , source := f.source
             , url := e.link } := by
  simp [process_entry, analyze_article_with_ai, hc, pyTruthy,
    List.isEmpty_iff, hd, dictGet, h1, h2, h3]

/-- C9 (witness): concrete instance of `missing_text_fields_default_to_empty`
with an analyzer object holding only a category. -/
theorem missing_text_fields_default_to_empty_witness :
    (("body" : String) ≠ "" ∧
      ([("category", "Tech")] : JsonObj) ≠ [] ∧
      ([("category", "Tech")] : JsonObj).find?
          (fun p => p.1 == "summary_2lines") = none ∧
      ([("category", "Tech")] : JsonObj).find?
          (fun p => p.1 == "why_it_matters") = none ∧
      ([("category", "Tech")] : JsonObj).find?
          (fun p => p.1 == "market_impact") = none) ∧
    process_entry cexEntry cexFeed (some "body")
        (some (PyJson.obj [("category", "Tech")]))
      = some { title := cexEntry.title
             , summary_2lines := ""
             , why_it_matters := ""
             , market_impact := ""
             , category := dictGet [("category", "Tech")] "category"
                 cexFeed.category
             , source := cexFeed.source
             , url := cexEntry.link } :=
  ⟨⟨by decide, by decide, by decide, by decide, by decide⟩,
   missing_text_fields_default_to_empty cexEntry cexFeed "body"
     [("category", "Tech")] (by decide) (by decide)
     (by decide) (by decide) (by decide)⟩

/-- C10: an analysis response that parses to the empty JSON object is falsy
in Python, so `process_entry` drops the entry exactly as if the analysis
call had failed. -/
theorem empty_analysis_object_treated_as_failure (e : Entry) (f : Feed)
    (c : Option String) :
    process_entry e f c (some (PyJson.obj [])) = none ∧
    process_entry e f c (some (PyJson.obj [])) = process_entry e f c none := by
  cases c with
  | none => exact ⟨rfl, rfl⟩
  | some s =>
    by_cases hs : s = ""
    · subst hs; exact ⟨rfl, rfl⟩
    · constructor <;>
        simp [process_entry, analyze_article_with_ai, hs, pyTruthy]

end FetchRss
